import Mathlib

/-!
Verification of the `dirsort` core (src/main.rs): directory traversal with a
depth bound, extension blacklist and category classification, copy/move
transfer, and the dispatcher's shared accounting.  Rust functions are embedded
shallowly: `OsStr` values carry the result of `to_str` (`none` when the bytes
are not valid UTF-8), a file system is a map from path strings to file
contents, and the parallel `rayon` fold is modelled as a sequential fold over
one linearization of the entry list (entries are processed independently, so
any interleaving acts entry by entry on the shared state).
-/

namespace Dirsort

/-- Model of an OS string as consumed through `OsStr::to_str`: `toStr` is
`some s` when the underlying bytes are valid UTF-8 decoding to `s`, and
`none` otherwise. -/
structure OsStr where
  toStr : Option String
  deriving DecidableEq

/-- Model of a `walkdir::DirEntry` as consumed by `process_file`:
`src` is `entry.path().display().to_string()`, `fileName` is
`entry.file_name()`, and `ext` is `entry.path().extension()`.  The extension
is computed by the standard library at byte level from the file name, so it
can be a valid `OsStr` (for example `txt`) even when the file name itself is
not valid UTF-8. -/
structure FileEntry where
  src : String
  fileName : OsStr
  ext : Option OsStr
  deriving DecidableEq

/-- A file system: each path string maps to the content of the regular file
stored there, if any. -/
def FS := String → Option String

/-- Overwrite the value a file system holds at one path. -/
def setPath (fs : FS) (p : String) (v : Option String) : FS :=
  fun q => if q = p then v else fs q

/-- `Path::join` for the destination paths built in `process_file`. -/
def joinPath (a b : String) : String := a ++ "/" ++ b

/-- The run configuration handed to the workers (from the parsed `Cli`):
output directory, `--move`, `--verbose`, the loaded blacklist and the loaded
category map.  The category `HashMap` is modelled as an association list in
its (unspecified) iteration order. -/
structure Cfg where
  outDir : String
  useMove : Bool
  verbose : Bool
  blacklist : List String
  categories : List (String × List String)

/-- Per-entry result of one worker iteration. -/
inductive Outcome where
  | skipped
  | succeeded
  | failed (msg : String)
  deriving DecidableEq

/-- The shared accumulators of a run (plus the file system the workers act
on): the error log behind the `Mutex` and the `skipped` atomic counter. -/
structure RunState where
  fs : FS
  errors : List String
  skipped : Nat

/-- The numbers `main` reports after the workers join. -/
structure RunSummary where
  total : Nat
  skipped : Nat
  processed : Nat
  errors : List String

/-- Rust `str::trim`: drop leading and trailing whitespace. -/
def trimChars (cs : List Char) : List Char :=
  ((cs.dropWhile Char.isWhitespace).reverse.dropWhile Char.isWhitespace).reverse

/-- Rust `str::split(c)`: split at every occurrence of `c`, keeping empty
pieces. -/
def splitChar (c : Char) : List Char → List (List Char)
  | [] => [[]]
  | a :: rest =>
    match splitChar c rest with
    | [] => [[a]]
    | g :: gs => if a = c then [] :: g :: gs else (a :: g) :: gs

/-- Rust `str::to_lowercase` (ASCII range, which covers every extension the
program compares). -/
def toLowercase (s : String) : String :=
  String.mk (s.toList.map Char.toLower)

/-- `HashSet::insert` on a set modelled as a duplicate-free list. -/
def insertSet (x : String) (s : List String) : List String :=
  if s.contains x then s else s ++ [x]

/-- `load_blacklist` (main.rs:227): tokens of the comma-separated `--blacklist`
argument and lines of the optional blacklist file are trimmed, lowercased,
stripped of one leading dot, and inserted unless empty (file lines starting
with `#` are also ignored).  The file, when given, is modelled by its list of
lines. -/
def load_blacklist (blacklistArg : Option String) (fileLines : Option (List String)) :
    List String :=
  let b1 : List String :=
    match blacklistArg with
    | some s =>
      (splitChar ',' s.toList).foldl
        (fun acc tok =>
          let e := (trimChars tok).map Char.toLower
          if e.isEmpty then acc
          else
            let e := match e with
              | '.' :: rest => rest
              | _ => e
            insertSet (String.mk e) acc)
        []
    | none => []
  match fileLines with
  | some lines =>
    lines.foldl
      (fun acc line =>
        let e := (trimChars line.toList).map Char.toLower
        if e.isEmpty then acc
        else if e.head? = some '#' then acc
        else
          let e := match e with
            | '.' :: rest => rest
            | _ => e
          insertSet (String.mk e) acc)
      b1
  | none => b1

/-- `is_blacklisted` (main.rs:267):
`path.extension().and_then(to_str).is_some_and(contains)`.  Note the raw
extension is looked up without lowercasing. -/
def is_blacklisted (filePath : FileEntry) (blacklist : List String) : Bool :=
  match filePath.ext with
  | some extOs =>
    match extOs.toStr with
    | some ext => blacklist.contains ext
    | none => false
  | none => false

/-- `get_category` (main.rs:195): first category whose extension list contains
the lowercased query. -/
def get_category (ext : String) (categories : List (String × List String)) :
    Option String :=
  match categories with
  | [] => none
  | (cat, exts) :: rest =>
    if exts.contains (toLowercase ext) then some cat else get_category ext rest

/-- The subfolder chosen in `process_file` (main.rs:349):
`get_category(ext).unwrap_or(ext)`. -/
def subfolderFor (ext : String) (categories : List (String × List String)) : String :=
  (get_category ext categories).getD ext

/-- The io error text for a missing source file. -/
def osErrNotFound : String := "No such file or directory (os error 2)"

/-- `move_file` (main.rs:92): `fs::rename`, which fails when the source does
not exist and otherwise relocates the content. -/
def move_file (source dest : String) (fs : FS) : FS × Option String :=
  match fs source with
  | none => (fs, some osErrNotFound)
  | some c => (setPath (setPath fs source none) dest (some c), none)

/-- `copy_file` (main.rs:205): delete the destination when it already exists,
then `fs::copy`, which fails when the source does not exist and otherwise
duplicates the full content. -/
def copy_file (source dest : String) (fs : FS) : FS × Option String :=
  let fs1 : FS := if (fs dest).isSome then setPath fs dest none else fs
  match fs1 source with
  | none => (fs1, some osErrNotFound)
  | some c => (setPath fs1 dest (some c), none)

/-- The error string pushed by a worker (main.rs:375):
`format!("Failed to process '{}': {}", path, cause)`. -/
def errMsg (e : FileEntry) (cause : String) : String :=
  "Failed to process '" ++ e.src ++ "': " ++ cause

/-- The fallible closure inside `process_file` (main.rs:339): decode the file
name, resolve the target subfolder from the extension (or `unknown`), create
the target directory (no effect on the file map) and move or copy.  Returns
the file system after the attempt and the cause on failure. -/
def transferAttempt (cfg : Cfg) (entry : FileEntry) (fs : FS) : FS × Option String :=
  match entry.fileName.toStr with
  | none => (fs, some "Invalid filename encoding")
  | some fileName =>
    match entry.ext with
    | some extOs =>
      match extOs.toStr with
      | none => (fs, some "Invalid extension encoding")
      | some extStr =>
        let subfolder := subfolderFor extStr cfg.categories
        let destPath := joinPath (joinPath cfg.outDir subfolder) fileName
        if cfg.useMove then move_file entry.src destPath fs
        else copy_file entry.src destPath fs
    | none =>
      let destPath := joinPath (joinPath cfg.outDir "unknown") fileName
      if cfg.useMove then move_file entry.src destPath fs
      else copy_file entry.src destPath fs

/-- `process_file` (main.rs:325): skip blacklisted entries (bumping the
skipped counter), otherwise run the transfer closure; on failure the formatted
message is pushed onto the shared error list only when the re-parsed CLI has
`--verbose` set (main.rs:377), which always equals the run's own flag. -/
def process_file (cfg : Cfg) (st : RunState) (entry : FileEntry) : RunState × Outcome :=
  if is_blacklisted entry cfg.blacklist then
    ({ st with skipped := st.skipped + 1 }, Outcome.skipped)
  else
    match transferAttempt cfg entry st.fs with
    | (fs1, none) => ({ st with fs := fs1 }, Outcome.succeeded)
    | (fs1, some cause) =>
      ({ fs := fs1,
         errors := if cfg.verbose then st.errors ++ [errMsg entry cause] else st.errors,
         skipped := st.skipped }, Outcome.failed (errMsg entry cause))

/-- The dispatcher (main.rs:470): every entry is processed exactly once
against the shared state; one outcome per entry. -/
def runDispatch (cfg : Cfg) (entries : List FileEntry) (st : RunState) :
    RunState × List Outcome :=
  match entries with
  | [] => (st, [])
  | e :: rest =>
    let step := process_file cfg st e
    let next := runDispatch cfg rest step.1
    (next.1, step.2 :: next.2)

/-- The evolution of the file-map component of the state under one worker
iteration. -/
def fsStep (cfg : Cfg) (fs : FS) (e : FileEntry) : FS :=
  if is_blacklisted e cfg.blacklist then fs else (transferAttempt cfg e fs).1

/-- The destination path an entry is transferred to, when a transfer is
attempted at all (`none` for blacklisted entries and encoding failures). -/
def destPathOf (cfg : Cfg) (e : FileEntry) : Option String :=
  if is_blacklisted e cfg.blacklist then none
  else
    match e.fileName.toStr with
    | none => none
    | some fileName =>
      match e.ext with
      | some extOs =>
        match extOs.toStr with
        | none => none
        | some extStr =>
          some (joinPath (joinPath cfg.outDir (subfolderFor extStr cfg.categories)) fileName)
      | none => some (joinPath (joinPath cfg.outDir "unknown") fileName)

/-- The summary `main` prints (main.rs:491): total found, skipped, and
`processed = total - skipped` (failed transfers are not subtracted). -/
def mainSummary (cfg : Cfg) (entries : List FileEntry) (fs : FS) : RunSummary :=
  let st := (runDispatch cfg entries { fs := fs, errors := [], skipped := 0 }).1
  { total := entries.length,
    skipped := st.skipped,
    processed := entries.length - st.skipped,
    errors := st.errors }

/-- `setup_thread_pool` (main.rs:274): an explicit thread count of zero is a
configuration error; any positive count, or no count, succeeds. -/
def setup_thread_pool (threadCount : Option Nat) : Except String Unit :=
  match threadCount with
  | some count => if count = 0 then Except.error "Thread count must be greater than 0" else Except.ok ()
  | none => Except.ok ()

/-- The run skeleton of `main` (main.rs:397): the thread-pool configuration is
checked first and a failure aborts with a specific cause before any entry is
dispatched; otherwise the dispatcher runs and the summary is produced. -/
def mainRun (cfg : Cfg) (threads : Option Nat) (entries : List FileEntry) (fs : FS) :
    Except String RunSummary :=
  match setup_thread_pool threads with
  | Except.error e => Except.error ("Error configuring threads: " ++ e)
  | Except.ok _ => Except.ok (mainSummary cfg entries fs)

/-- A source tree: the walker's view of the directory structure. -/
inductive FsTree where
  | file (name : String)
  | dir (name : String) (children : List FsTree)

/-- Depth guard of `WalkDir::max_depth`: entries are yielded when their depth
does not exceed the bound; no bound means unbounded. -/
def withinDepth (d : Nat) : Option Nat → Bool
  | none => true
  | some bound => d ≤ bound

mutual

/-- The `WalkDir` iterator (root at depth 0, children at depth `d + 1`),
yielding `(is_dir, name)` pairs in discovery order, restricted by
`max_depth`. -/
def walkTree (bound : Option Nat) (d : Nat) : FsTree → List (Bool × String)
  | FsTree.file n => if withinDepth d bound then [(false, n)] else []
  | FsTree.dir n cs =>
    if withinDepth d bound then (true, n) :: walkForest bound (d + 1) cs else []

/-- Walk a list of sibling subtrees at one depth. -/
def walkForest (bound : Option Nat) (d : Nat) : List FsTree → List (Bool × String)
  | [] => []
  | t :: ts => walkTree bound d t ++ walkForest bound d ts

end

/-- `collect_files` (main.rs:294): walk the current directory (the root of
the given children, an entry of depth 0) with the optional `max_depth`, keep
the regular files, and count the directories visited. -/
def collect_files (rootChildren : List FsTree) (maxDepth : Option Nat) :
    List String × Nat :=
  let es := walkTree maxDepth 0 (FsTree.dir "." rootChildren)
  (es.filterMap (fun e => if e.1 then none else some e.2),
   (es.filter (fun e => e.1)).length)

/-- A fixture configuration: copy mode into `sorted`, verbose off, empty
blacklist, no categories. -/
def cfgW : Cfg :=
  { outDir := "sorted", useMove := false, verbose := false, blacklist := [], categories := [] }

/-- A fixture configuration with `txt` blacklisted. -/
def cfgBL : Cfg :=
  { outDir := "sorted", useMove := false, verbose := false, blacklist := ["txt"], categories := [] }

/-- The initial shared state over an empty file system. -/
def stEmpty : RunState := { fs := fun _ => none, errors := [], skipped := 0 }

/-- A discovered `txt` entry whose source file no longer exists at transfer
time (scenario D of the spec). -/
def entryGone : FileEntry :=
  { src := "./gone.txt", fileName := ⟨some "gone.txt"⟩, ext := some ⟨some "txt"⟩ }

/-- An entry with an uppercase extension claimed by no category. -/
def entryXYZ : FileEntry :=
  { src := "./f.XYZ", fileName := ⟨some "f.XYZ"⟩, ext := some ⟨some "XYZ"⟩ }

/-- An entry with no extension at all. -/
def entryNoExt : FileEntry := { src := "./c", fileName := ⟨some "c"⟩, ext := none }

/-- An ordinary entry whose source exists in `fsA`. -/
def entryA : FileEntry :=
  { src := "./a.txt", fileName := ⟨some "a.txt"⟩, ext := some ⟨some "txt"⟩ }

/-- A file system holding exactly the source of `entryA`. -/
def fsA : FS := fun p => if p = "./a.txt" then some "hello" else none

/-- A file system holding exactly one file `a` with content `x`. -/
def fsOne : FS := fun p => if p = "a" then some "x" else none

/-- An entry whose file-name bytes are not valid UTF-8 while its byte-level
extension decodes to `txt` (for example a name like `b<0xFF>.txt`). -/
def entryBadName : FileEntry :=
  { src := "./bad.txt", fileName := ⟨none⟩, ext := some ⟨some "txt"⟩ }

/-- An entry whose file name and extension are both invalid UTF-8. -/
def entryBadBoth : FileEntry := { src := "./bad", fileName := ⟨none⟩, ext := some ⟨none⟩ }

theorem setPath_self (fs : FS) (p : String) (v : Option String) : setPath fs p v p = v := by
  simp [setPath]

theorem setPath_other (fs : FS) (p : String) (v : Option String) (q : String) (h : q ≠ p) :
    setPath fs p v q = fs q := by
  simp [setPath, h]

theorem runDispatch_length (cfg : Cfg) (es : List FileEntry) (st : RunState) :
    (runDispatch cfg es st).2.length = es.length := by
  induction es generalizing st with
  | nil => rfl
  | cons e rest ih => simp [runDispatch, ih]

theorem process_file_skipped_or (cfg : Cfg) (st : RunState) (e : FileEntry) :
    (process_file cfg st e).1.skipped = st.skipped
    ∨ (process_file cfg st e).1.skipped = st.skipped + 1 := by
  unfold process_file
  split
  · right; rfl
  · split
    · left; rfl
    · left; rfl

theorem runDispatch_skipped_le (cfg : Cfg) (es : List FileEntry) (st : RunState) :
    (runDispatch cfg es st).1.skipped ≤ st.skipped + es.length := by
  induction es generalizing st with
  | nil => simp [runDispatch]
  | cons e rest ih =>
    have h1 := ih (process_file cfg st e).1
    have h2 := process_file_skipped_or cfg st e
    simp only [runDispatch, List.length_cons]
    rcases h2 with h2 | h2 <;> omega

theorem process_file_fs (cfg : Cfg) (st : RunState) (e : FileEntry) :
    (process_file cfg st e).1.fs = fsStep cfg st.fs e := by
  unfold process_file fsStep
  split
  · rfl
  · rcases h : transferAttempt cfg e st.fs with ⟨fs1, err⟩
    cases err <;> simp [h]

theorem runDispatch_fs (cfg : Cfg) (es : List FileEntry) (st : RunState) :
    (runDispatch cfg es st).1.fs = es.foldl (fsStep cfg) st.fs := by
  induction es generalizing st with
  | nil => rfl
  | cons e rest ih =>
    simp only [runDispatch, List.foldl_cons]
    rw [ih, process_file_fs]

theorem copy_file_other (s d : String) (fs : FS) (p : String) (hp : p ≠ d) :
    (copy_file s d fs).1 p = fs p := by
  unfold copy_file
  by_cases hd : (fs d).isSome <;>
    simp only [hd, Bool.false_eq_true, if_true, if_false] <;>
    split <;> simp_all [setPath]

theorem copy_file_dest (s d : String) (fs : FS) (hsd : s ≠ d) :
    (copy_file s d fs).1 d = fs s := by
  unfold copy_file
  by_cases hd : (fs d).isSome <;>
    simp only [hd, Bool.false_eq_true, if_true, if_false] <;>
    split <;> rename_i h <;>
    simp_all [setPath, Option.not_isSome_iff_eq_none]

theorem fsStep_of_destPath_none (cfg : Cfg) (fs : FS) (e : FileEntry)
    (h : destPathOf cfg e = none) : fsStep cfg fs e = fs := by
  by_cases hb : is_blacklisted e cfg.blacklist
  · simp [fsStep, hb]
  · rcases hn : e.fileName.toStr with _ | name
    · simp [fsStep, transferAttempt, hb, hn]
    · rcases he : e.ext with _ | extOs
      · simp [destPathOf, hb, hn, he] at h
      · rcases hx : extOs.toStr with _ | ex
        · simp [fsStep, transferAttempt, hb, hn, he, hx]
        · simp [destPathOf, hb, hn, he, hx] at h

theorem fsStep_other (cfg : Cfg) (fs : FS) (e : FileEntry) (p : String)
    (hm : cfg.useMove = false) (h : destPathOf cfg e ≠ some p) :
    fsStep cfg fs e p = fs p := by
  rcases hd : destPathOf cfg e with _ | d
  · rw [fsStep_of_destPath_none cfg fs e hd]
  · have hpd : p ≠ d := fun hh => h (by rw [hd, hh])
    by_cases hb : is_blacklisted e cfg.blacklist
    · simp [fsStep, hb]
    · rcases hn : e.fileName.toStr with _ | name
      · simp [destPathOf, hb, hn] at hd
      · rcases he : e.ext with _ | extOs
        · have hjd : joinPath (joinPath cfg.outDir "unknown") name = d := by
            simpa [destPathOf, hb, hn, he] using hd
          simp only [fsStep, hb, Bool.false_eq_true, if_false, transferAttempt, hn, he, hjd, hm]
          exact copy_file_other e.src d fs p hpd
        · rcases hx : extOs.toStr with _ | ex
          · simp [destPathOf, hb, hn, he, hx] at hd
          · have hjd : joinPath (joinPath cfg.outDir (subfolderFor ex cfg.categories)) name = d := by
              simpa [destPathOf, hb, hn, he, hx] using hd
            simp only [fsStep, hb, Bool.false_eq_true, if_false, transferAttempt, hn, he, hx, hjd, hm]
            exact copy_file_other e.src d fs p hpd

theorem fsStep_dest (cfg : Cfg) (fs : FS) (e : FileEntry) (d : String)
    (hm : cfg.useMove = false) (hd : destPathOf cfg e = some d) (hsd : e.src ≠ d) :
    fsStep cfg fs e d = fs e.src := by
  by_cases hb : is_blacklisted e cfg.blacklist
  · simp [destPathOf, hb] at hd
  · rcases hn : e.fileName.toStr with _ | name
    · simp [destPathOf, hb, hn] at hd
    · rcases he : e.ext with _ | extOs
      · have hjd : joinPath (joinPath cfg.outDir "unknown") name = d := by
          simpa [destPathOf, hb, hn, he] using hd
        simp only [fsStep, hb, Bool.false_eq_true, if_false, transferAttempt, hn, he, hjd, hm]
        exact copy_file_dest e.src d fs hsd
      · rcases hx : extOs.toStr with _ | ex
        · simp [destPathOf, hb, hn, he, hx] at hd
        · have hjd : joinPath (joinPath cfg.outDir (subfolderFor ex cfg.categories)) name = d := by
            simpa [destPathOf, hb, hn, he, hx] using hd
          simp only [fsStep, hb, Bool.false_eq_true, if_false, transferAttempt, hn, he, hx, hjd, hm]
          exact copy_file_dest e.src d fs hsd

theorem foldl_fsStep_untouched (cfg : Cfg) (es : List FileEntry) (hm : cfg.useMove = false) :
    ∀ fs : FS, ∀ p : String, (∀ e ∈ es, destPathOf cfg e ≠ some p) →
      es.foldl (fsStep cfg) fs p = fs p := by
  induction es with
  | nil => intro fs p _; rfl
  | cons e rest ih =>
    intro fs p h
    rw [List.foldl_cons,
      ih (fsStep cfg fs e) p (fun x hx => h x (List.mem_cons_of_mem _ hx))]
    exact fsStep_other cfg fs e p hm (h e (List.mem_cons_self _ _))

theorem foldl_fsStep_agree (cfg : Cfg) (es : List FileEntry) (hm : cfg.useMove = false) :
    ∀ fs₁ fs₂ : FS,
      (∀ e ∈ es, fs₁ e.src = fs₂ e.src) →
      (∀ a ∈ es, ∀ b ∈ es, destPathOf cfg b ≠ some a.src) →
      ∀ p : String,
        es.foldl (fsStep cfg) fs₁ p = es.foldl (fsStep cfg) fs₂ p
        ∨ (es.foldl (fsStep cfg) fs₁ p = fs₁ p ∧ es.foldl (fsStep cfg) fs₂ p = fs₂ p) := by
  induction es with
  | nil =>
    intro fs₁ fs₂ _ _ p
    right
    exact ⟨rfl, rfl⟩
  | cons e rest ih =>
    intro fs₁ fs₂ hagree hdisj p
    have hstep : ∀ q : String,
        fsStep cfg fs₁ e q = fsStep cfg fs₂ e q
        ∨ (fsStep cfg fs₁ e q = fs₁ q ∧ fsStep cfg fs₂ e q = fs₂ q) := by
      intro q
      rcases hd : destPathOf cfg e with _ | d
      · right
        rw [fsStep_of_destPath_none cfg fs₁ e hd, fsStep_of_destPath_none cfg fs₂ e hd]
        exact ⟨rfl, rfl⟩
      · by_cases hq : q = d
        · left
          subst hq
          have hsd : e.src ≠ q := fun hh =>
            hdisj e (List.mem_cons_self _ _) e (List.mem_cons_self _ _)
              (hd.trans (congrArg some hh.symm))
          rw [fsStep_dest cfg fs₁ e q hm hd hsd, fsStep_dest cfg fs₂ e q hm hd hsd]
          exact hagree e (List.mem_cons_self _ _)
        · right
          have hne : destPathOf cfg e ≠ some q := by
            rw [hd]
            exact fun hh => hq (Option.some.inj hh).symm
          rw [fsStep_other cfg fs₁ e q hm hne, fsStep_other cfg fs₂ e q hm hne]
          exact ⟨rfl, rfl⟩
    have hagree2 : ∀ x ∈ rest, fsStep cfg fs₁ e x.src = fsStep cfg fs₂ e x.src := by
      intro x hx
      rcases hstep x.src with h1 | ⟨h1, h2⟩
      · exact h1
      · rw [h1, h2]
        exact hagree x (List.mem_cons_of_mem _ hx)
    have hdisj2 : ∀ a ∈ rest, ∀ b ∈ rest, destPathOf cfg b ≠ some a.src := fun a ha b hb =>
      hdisj a (List.mem_cons_of_mem _ ha) b (List.mem_cons_of_mem _ hb)
    rw [List.foldl_cons, List.foldl_cons]
    rcases ih (fsStep cfg fs₁ e) (fsStep cfg fs₂ e) hagree2 hdisj2 p with h1 | ⟨h1, h2⟩
    · exact Or.inl h1
    · rcases hstep p with hp | ⟨hp1, hp2⟩
      · exact Or.inl (by rw [h1, h2, hp])
      · exact Or.inr ⟨h1.trans hp1, h2.trans hp2⟩
theorem process_file_failed (cfg : Cfg) (st : RunState) (e : FileEntry) (cause : String)
    (hb : is_blacklisted e cfg.blacklist = false)
    (hf : (transferAttempt cfg e st.fs).2 = some cause) :
    (process_file cfg st e).2 = Outcome.failed (errMsg e cause)
    ∧ (process_file cfg st e).1.errors
        = (if cfg.verbose then st.errors ++ [errMsg e cause] else st.errors)
    ∧ (process_file cfg st e).1.skipped = st.skipped := by
  rcases ht : transferAttempt cfg e st.fs with ⟨fs1, err⟩
  rw [ht] at hf
  have herr : err = some cause := hf
  subst herr
  unfold process_file
  rw [hb]
  simp [ht]

/-- C1, counterexample: with `--verbose` unset, the entry `./gone.txt` whose
source is missing produces a `Failed` outcome, yet the shared error log stays
empty — the formatted message is NOT appended, contradicting "regardless of
any verbosity setting". -/
theorem C1_counterexample :
    (process_file cfgW stEmpty entryGone).2
      = Outcome.failed "Failed to process './gone.txt': No such file or directory (os error 2)"
    ∧ (process_file cfgW stEmpty entryGone).1.errors = [] := by decide

/-- C1, amended: for every entry whose transfer attempt fails, the worker
yields a `Failed` outcome carrying the formatted message (source path and
underlying cause), appends that message to the shared error log only when the
verbose flag is set (and appends nothing otherwise), leaves the skipped
counter unchanged, and the dispatcher still produces exactly one outcome for
every remaining entry (no abort, no panic). -/
theorem C1_errors_gated_by_verbose (cfg : Cfg) (st : RunState) (e : FileEntry)
    (cause : String) (rest : List FileEntry)
    (hb : is_blacklisted e cfg.blacklist = false)
    (hf : (transferAttempt cfg e st.fs).2 = some cause) :
    (process_file cfg st e).2 = Outcome.failed (errMsg e cause)
    ∧ (process_file cfg st e).1.errors
        = (if cfg.verbose then st.errors ++ [errMsg e cause] else st.errors)
    ∧ (process_file cfg st e).1.skipped = st.skipped
    ∧ (runDispatch cfg (e :: rest) st).2.length = rest.length + 1 := by
  have h := process_file_failed cfg st e cause hb hf
  exact ⟨h.1, h.2.1, h.2.2, by simpa using runDispatch_length cfg (e :: rest) st⟩

/-- C1, witness: the amended theorem applied to the concrete failing entry
`./gone.txt` under the concrete verbose-off configuration. -/
theorem C1_witness :
    (process_file cfgW stEmpty entryGone).2 = Outcome.failed (errMsg entryGone osErrNotFound)
    ∧ (process_file cfgW stEmpty entryGone).1.errors
        = (if cfgW.verbose then stEmpty.errors ++ [errMsg entryGone osErrNotFound]
           else stEmpty.errors)
    ∧ (process_file cfgW stEmpty entryGone).1.skipped = stEmpty.skipped
    ∧ (runDispatch cfgW [entryGone] stEmpty).2.length = 1 := by
  have h := C1_errors_gated_by_verbose cfgW stEmpty entryGone osErrNotFound []
    (by decide) (by decide)
  exact ⟨h.1, h.2.1, h.2.2.1, h.2.2.2⟩

/-- C2: `load_blacklist` lowercases its entries (here `--blacklist txt` loads
as `txt`), but `is_blacklisted` looks up the raw extension without
lowercasing, so the path `./b.TXT` is NOT blacklisted even though its
lowercased extension is in the blacklist — the claimed iff fails on the
loaded blacklist at this input. -/
theorem C2_blacklist_case_sensitive_eval :
    load_blacklist (some "txt") none = ["txt"]
    ∧ is_blacklisted
        { src := "./b.TXT", fileName := ⟨some "b.TXT"⟩, ext := some ⟨some "TXT"⟩ }
        (load_blacklist (some "txt") none) = false
    ∧ toLowercase "TXT" ∈ load_blacklist (some "txt") none := by decide

/-- C3, counterexample: the extension `XYZ` is claimed by no category, and the
subfolder chosen for it is the literal `XYZ`, not the lowercased `xyz` the
claim demands. -/
theorem C3_counterexample :
    get_category "XYZ" [] = none
    ∧ subfolderFor "XYZ" [] = "XYZ"
    ∧ subfolderFor "XYZ" [] ≠ toLowercase "XYZ" := by decide

/-- C3, amended: for every non-blacklisted entry with a decodable extension
that no category claims, the destination subfolder is the extension literal
exactly as it appears on the path (case preserved), and the transfer targets
`out_dir/<ext>/<file_name>` (category lookup itself compares against the
lowercased query). -/
theorem C3_uncategorized_subfolder (cfg : Cfg) (fs : FS) (e : FileEntry)
    (name ex : String) (extOs : OsStr)
    (hn : e.fileName.toStr = some name) (he : e.ext = some extOs)
    (hx : extOs.toStr = some ex) (hc : get_category ex cfg.categories = none) :
    subfolderFor ex cfg.categories = ex
    ∧ transferAttempt cfg e fs =
        (if cfg.useMove then
          move_file e.src (joinPath (joinPath cfg.outDir ex) name) fs
        else copy_file e.src (joinPath (joinPath cfg.outDir ex) name) fs) := by
  have hs : subfolderFor ex cfg.categories = ex := by simp [subfolderFor, hc]
  refine ⟨hs, ?_⟩
  simp [transferAttempt, hn, he, hx, hs]

/-- C3, witness: the amended theorem applied to the concrete entry `./f.XYZ`
with no categories loaded. -/
theorem C3_witness :
    subfolderFor "XYZ" cfgW.categories = "XYZ"
    ∧ transferAttempt cfgW entryXYZ stEmpty.fs =
        copy_file entryXYZ.src (joinPath (joinPath cfgW.outDir "XYZ") "f.XYZ") stEmpty.fs := by
  have h := C3_uncategorized_subfolder cfgW stEmpty.fs entryXYZ "f.XYZ" "XYZ" ⟨some "XYZ"⟩
    rfl rfl rfl (by decide)
  refine ⟨h.1, ?_⟩
  simpa [cfgW] using h.2

/-- C4: with a maximum depth of 0 the walker yields NO files at all — not
even the regular files directly in the root — because `max_depth(0)` keeps
only the root directory entry itself (files in the root sit at depth 1);
with the bound absent traversal is unbounded and the same file is found. -/
theorem C4_depth_zero_yields_no_files :
    (∀ rootChildren : List FsTree, (collect_files rootChildren (some 0)).1 = [])
    ∧ collect_files [FsTree.file "a.txt"] (some 0) = ([], 1)
    ∧ collect_files [FsTree.file "a.txt"] none = (["a.txt"], 1) := by
  refine ⟨?_, by decide, by decide⟩
  intro cs
  have h : ∀ ts : List FsTree, walkForest (some 0) 1 ts = [] := by
    intro ts
    induction ts with
    | nil => rfl
    | cons t ts ih => cases t <;> simp [walkForest, walkTree, withinDepth, ih]
  simp [collect_files, walkTree, withinDepth, h]

/-- C5: for every run, the reported processed count equals the total number
of discovered entries minus the skipped count (failed transfers are not
subtracted), and skipped plus processed equals the total discovered. -/
theorem C5_conservation (cfg : Cfg) (entries : List FileEntry) (fs : FS) :
    (mainSummary cfg entries fs).processed
      = (mainSummary cfg entries fs).total - (mainSummary cfg entries fs).skipped
    ∧ (mainSummary cfg entries fs).skipped + (mainSummary cfg entries fs).processed
      = (mainSummary cfg entries fs).total := by
  have hle := runDispatch_skipped_le cfg entries { fs := fs, errors := [], skipped := 0 }
  simp only [Nat.zero_add] at hle
  constructor
  · rfl
  · simp only [mainSummary]
    omega

/-- C6, counterexample: calling `copy_file` with source and destination the
same existing path `a` deletes the destination (= the source) first and then
fails, so the failed copy DID delete the source — "the source file itself is
left unchanged" does not hold for every source and destination. -/
theorem C6_counterexample :
    fsOne "a" = some "x"
    ∧ (copy_file "a" "a" fsOne).2 = some osErrNotFound
    ∧ (copy_file "a" "a" fsOne).1 "a" = none := by decide

/-- C6, amended: in copy mode, for every source and destination that are
distinct paths: the source is left unchanged whether the copy succeeds or
fails; when the source exists the copy succeeds and the destination holds the
full source content (overwriting any prior content); when the source is
missing the copy fails and the destination has been deleted first (if it
existed). -/
theorem C6_copy_semantics (s d : String) (fs : FS) (hsd : s ≠ d) :
    (copy_file s d fs).1 s = fs s
    ∧ (∀ c, fs s = some c → (copy_file s d fs).2 = none ∧ (copy_file s d fs).1 d = some c)
    ∧ (fs s = none → (copy_file s d fs).2 ≠ none ∧ (copy_file s d fs).1 d = none) := by
  refine ⟨copy_file_other s d fs s hsd, ?_, ?_⟩
  · intro c hc
    refine ⟨?_, by rw [copy_file_dest s d fs hsd, hc]⟩
    unfold copy_file
    by_cases hd : (fs d).isSome <;>
      simp only [hd, Bool.false_eq_true, if_true, if_false] <;>
      split <;> rename_i h <;> simp_all [setPath, hsd]
  · intro hc
    refine ⟨?_, by rw [copy_file_dest s d fs hsd, hc]⟩
    unfold copy_file
    by_cases hd : (fs d).isSome <;>
      simp only [hd, Bool.false_eq_true, if_true, if_false] <;>
      split <;> rename_i h <;> simp_all [setPath, hsd]

/-- C6, witness: the amended theorem applied to the concrete copy of `a`
(content `x`) to the distinct destination `out/a`. -/
theorem C6_witness :
    (copy_file "a" "out/a" fsOne).1 "a" = fsOne "a"
    ∧ (copy_file "a" "out/a" fsOne).2 = none
    ∧ (copy_file "a" "out/a" fsOne).1 "out/a" = some "x" := by
  have h := C6_copy_semantics "a" "out/a" fsOne (by decide)
  have h2 := h.2.1 "x" (by decide)
  exact ⟨h.1, h2.1, h2.2⟩

/-- C7: a file entry without an extension is never blacklisted (for any
blacklist), its processing never yields the Skip outcome and never bumps the
skipped counter, and its transfer targets the fixed sentinel subfolder
`unknown` under the output directory. -/
theorem C7_no_extension_unknown (cfg : Cfg) (st : RunState) (e : FileEntry)
    (bl : List String) (h : e.ext = none) :
    is_blacklisted e bl = false
    ∧ (process_file cfg st e).2 ≠ Outcome.skipped
    ∧ (process_file cfg st e).1.skipped = st.skipped
    ∧ (∀ name, e.fileName.toStr = some name →
        transferAttempt cfg e st.fs =
          (if cfg.useMove then
            move_file e.src (joinPath (joinPath cfg.outDir "unknown") name) st.fs
          else copy_file e.src (joinPath (joinPath cfg.outDir "unknown") name) st.fs)) := by
  have hbl : ∀ bl2 : List String, is_blacklisted e bl2 = false := by
    intro bl2
    simp [is_blacklisted, h]
  have hb := hbl cfg.blacklist
  refine ⟨hbl bl, ?_, ?_, ?_⟩
  · unfold process_file
    rw [hb]
    simp only [Bool.false_eq_true, if_false]
    rcases ht : transferAttempt cfg e st.fs with ⟨fs1, err⟩
    cases err <;> simp
  · unfold process_file
    rw [hb]
    simp only [Bool.false_eq_true, if_false]
    rcases ht : transferAttempt cfg e st.fs with ⟨fs1, err⟩
    cases err <;> simp
  · intro name hn
    simp [transferAttempt, hn, h]

/-- C7, witness: the theorem applied to the concrete extensionless entry
`./c` against the blacklist containing `txt`. -/
theorem C7_witness :
    is_blacklisted entryNoExt ["txt"] = false
    ∧ (process_file cfgW stEmpty entryNoExt).2 ≠ Outcome.skipped
    ∧ (process_file cfgW stEmpty entryNoExt).1.skipped = stEmpty.skipped := by
  have h := C7_no_extension_unknown cfgW stEmpty entryNoExt ["txt"] rfl
  exact ⟨h.1, h.2.1, h.2.2.1⟩

/-- C8: an explicit worker-pool bound of zero is rejected as a configuration
error with a specific cause, and the run aborts before any entry is
dispatched (the result is the fatal error, not a run summary), for every
configuration, entry list and file system. -/
theorem C8_zero_threads_aborts (cfg : Cfg) (entries : List FileEntry) (fs : FS) :
    setup_thread_pool (some 0) = Except.error "Thread count must be greater than 0"
    ∧ mainRun cfg (some 0) entries fs
        = Except.error "Error configuring threads: Thread count must be greater than 0" := by
  constructor
  · rfl
  · rfl

/-- C9: running the copy mode twice over the same entry list into the same
output directory is idempotent — when no destination path coincides with any
source path (the source tree and the output directory are separate), the file
content at every path after the second run equals the content after the first
run. -/
theorem C9_copy_idempotent (cfg : Cfg) (es : List FileEntry) (fs : FS)
    (hm : cfg.useMove = false)
    (hdisj : ∀ a ∈ es, ∀ b ∈ es, destPathOf cfg b ≠ some a.src) :
    ∀ p : String,
      (runDispatch cfg es
        { fs := (runDispatch cfg es { fs := fs, errors := [], skipped := 0 }).1.fs,
          errors := [], skipped := 0 }).1.fs p
      = (runDispatch cfg es { fs := fs, errors := [], skipped := 0 }).1.fs p := by
  intro p
  simp only [runDispatch_fs]
  have hagree : ∀ e ∈ es, es.foldl (fsStep cfg) fs e.src = fs e.src := fun e he =>
    foldl_fsStep_untouched cfg es hm fs e.src (fun b hb => hdisj e he b hb)
  rcases foldl_fsStep_agree cfg es hm (es.foldl (fsStep cfg) fs) fs hagree hdisj p
    with h | ⟨h1, _⟩
  · exact h
  · exact h1

/-- C9, witness: the theorem applied to the concrete one-entry run copying
`./a.txt` into `sorted`, observed at the destination `sorted/txt/a.txt`. -/
theorem C9_witness :
    (runDispatch cfgW [entryA]
      { fs := (runDispatch cfgW [entryA] { fs := fsA, errors := [], skipped := 0 }).1.fs,
        errors := [], skipped := 0 }).1.fs "sorted/txt/a.txt"
    = (runDispatch cfgW [entryA] { fs := fsA, errors := [], skipped := 0 }).1.fs "sorted/txt/a.txt" :=
  C9_copy_idempotent cfgW [entryA] fsA rfl (by decide) "sorted/txt/a.txt"

/-- C10, counterexample: an entry whose file name is invalid UTF-8 but whose
byte-level extension decodes to the blacklisted `txt` is skipped as
blacklisted (the blacklist check runs before the encoding check), not given
the claimed Failed-with-encoding-error outcome. -/
theorem C10_counterexample :
    (process_file cfgBL stEmpty entryBadName).2 = Outcome.skipped
    ∧ (process_file cfgBL stEmpty entryBadName).1.skipped = 1
    ∧ is_blacklisted entryBadName cfgBL.blacklist = true := by decide

/-- C10, amended: an entry whose extension is not valid UTF-8 is never
treated as blacklisted (for any blacklist); and every entry with an invalid
file-name or extension encoding that is not blacklisted takes the handled
error branch — a Failed outcome with an encoding-error message — without
touching the skipped counter, and the dispatcher still produces exactly one
outcome for every remaining entry (no panic, no abort). -/
theorem C10_encoding_failures_handled :
    (∀ (e : FileEntry) (bl : List String) (os : OsStr),
      e.ext = some os → os.toStr = none → is_blacklisted e bl = false)
    ∧ (∀ (cfg : Cfg) (st : RunState) (e : FileEntry),
        (e.fileName.toStr = none ∨ (∃ os, e.ext = some os ∧ os.toStr = none)) →
        is_blacklisted e cfg.blacklist = false →
        ((process_file cfg st e).2 = Outcome.failed (errMsg e "Invalid filename encoding")
          ∨ (process_file cfg st e).2 = Outcome.failed (errMsg e "Invalid extension encoding"))
        ∧ (process_file cfg st e).1.skipped = st.skipped
        ∧ ∀ rest, (runDispatch cfg (e :: rest) st).2.length = rest.length + 1) := by
  constructor
  · intro e bl os he hx
    simp [is_blacklisted, he, hx]
  · intro cfg st e hbad hb
    have hfail : (transferAttempt cfg e st.fs).2 = some "Invalid filename encoding"
        ∨ (transferAttempt cfg e st.fs).2 = some "Invalid extension encoding" := by
      rcases hbad with hn | ⟨os, he, hx⟩
      · left
        simp [transferAttempt, hn]
      · rcases hname : e.fileName.toStr with _ | nm
        · left
          simp [transferAttempt, hname]
        · right
          simp [transferAttempt, hname, he, hx]
    have hlen : ∀ rest, (runDispatch cfg (e :: rest) st).2.length = rest.length + 1 := by
      intro rest
      simpa using runDispatch_length cfg (e :: rest) st
    rcases hfail with hf | hf
    · exact ⟨Or.inl (process_file_failed cfg st e _ hb hf).1,
        (process_file_failed cfg st e _ hb hf).2.2, hlen⟩
    · exact ⟨Or.inr (process_file_failed cfg st e _ hb hf).1,
        (process_file_failed cfg st e _ hb hf).2.2, hlen⟩

/-- C10, witness: the amended theorem applied to the concrete entry whose
file name and extension are both invalid UTF-8, under the empty blacklist. -/
theorem C10_witness :
    is_blacklisted entryBadBoth ["txt"] = false
    ∧ ((process_file cfgW stEmpty entryBadBoth).2
          = Outcome.failed (errMsg entryBadBoth "Invalid filename encoding")
        ∨ (process_file cfgW stEmpty entryBadBoth).2
          = Outcome.failed (errMsg entryBadBoth "Invalid extension encoding"))
    ∧ (process_file cfgW stEmpty entryBadBoth).1.skipped = stEmpty.skipped := by
  have h1 := C10_encoding_failures_handled.1 entryBadBoth ["txt"] ⟨none⟩ rfl rfl
  have h2 := C10_encoding_failures_handled.2 cfgW stEmpty entryBadBoth (Or.inl rfl) (by decide)
  exact ⟨h1, h2.1, h2.2.1⟩

end Dirsort
